import Mathlib

/-!
Verification of the Malaphor anomaly-detection core against its
natural-language specification.

The Python sources are shallowly embedded as executable Lean definitions:
  - backend/inference/inference.py : severity bucketing, connected-node
    context, threshold filtering in detect_anomalies
  - backend/api/main.py            : aggregate risk-score metric
  - backend/training/train.py      : early-stopping epoch loop and the
    zero-positive-label AUC/AP guard
  - backend/data/graph_dataset.py  : synthetic graph generator, the five
    anomaly-injection patterns, and the featurizer vocabulary fit

Randomness in the Python code (numpy draws) is modelled by passing the
draw results in as explicit parameters, so theorems quantify over every
possible outcome of the random number generator.
-/

namespace Malaphor

/-- A cloud resource node as the Python dicts carry it: keys id, label,
group.  Shared by graph_dataset.py and inference.py, which use the same
three keys. -/
structure CNode where
  id : String
  label : String
  group : String
deriving DecidableEq, Repr

/-- An edge as inference.py reads it: keys from_id and to_id. -/
structure IEdge where
  id : String
  from_id : String
  to_id : String
deriving DecidableEq, Repr

/-- A finding emitted by CloudSecurityInference.detect_anomalies.  The
uuid and timestamp fields are environment-supplied strings. -/
structure Finding where
  id : String
  node_id : String
  node_type : String
  node_label : String
  severity : String
  confidence_score : ℚ
  timestamp : String
  connected_nodes : List String
deriving DecidableEq, Repr

/-- CloudSecurityInference._determine_severity (inference.py lines
220-229): if confidence > 0.9 critical, elif > 0.8 high, elif > 0.7
medium, else low. -/
def determine_severity (confidence : ℚ) : String :=
  if mkRat 9 10 < confidence then "critical"
  else if mkRat 8 10 < confidence then "high"
  else if mkRat 7 10 < confidence then "medium"
  else "low"

/-- The severity step function as the specification words it (spec section
8): score > 0.9 critical, > 0.7 high, > 0.5 medium, else low.  Stated only
to be compared with determine_severity. -/
def spec_severity (score : ℚ) : String :=
  if mkRat 9 10 < score then "critical"
  else if mkRat 7 10 < score then "high"
  else if mkRat 5 10 < score then "medium"
  else "low"

/-- CloudSecurityInference._get_connected_nodes (inference.py lines
231-239): one entry appended per edge whose from_id or to_id equals the
node id (elif, so a given edge contributes at most one entry). -/
def get_connected_nodes (node_id : String) (edges : List IEdge) : List String :=
  edges.filterMap fun e =>
    if e.from_id = node_id then some e.to_id
    else if e.to_id = node_id then some e.from_id
    else none

/-- CloudSecurityInference.detect_anomalies (inference.py lines 188-218):
zips the node list with the model predictions, keeps the pairs whose
prediction strictly exceeds the threshold, and builds one finding per
kept pair.  uuid_gen models str(uuid.uuid4()) (one fresh id per emitted
finding) and now models datetime.utcnow().isoformat(). -/
def detect_anomalies (uuid_gen : ℕ → String) (now : String) (threshold : ℚ)
    (nodes : List CNode) (edges : List IEdge) (preds : List ℚ) : List Finding :=
  ((nodes.zip preds).enum).filterMap fun p =>
    if threshold < p.2.2 then
      some { id := uuid_gen p.1
             node_id := p.2.1.id
             node_type := p.2.1.group
             node_label := p.2.1.label
             severity := determine_severity p.2.2
             confidence_score := p.2.2
             timestamp := now
             connected_nodes := get_connected_nodes p.2.1.id edges }
    else none

/-- Severity weights used by analyze_cloud_graph (api/main.py line 168);
a key outside the four buckets would raise KeyError in Python, modelled
as none. -/
def severity_weight (s : String) : Option ℕ :=
  if s = "critical" then some 100
  else if s = "high" then some 70
  else if s = "medium" then some 40
  else if s = "low" then some 10
  else none

/-- Aggregate risk score of analyze_cloud_graph (api/main.py lines
166-172): 0 for no findings, otherwise min(100, int(weighted_sum /
count)).  Python int() truncates the non-negative quotient, which is
exactly Nat division here. -/
def risk_score (sevs : List String) : Option ℕ :=
  if sevs.isEmpty then some 0
  else
    match sevs.mapM severity_weight with
    | none => none
    | some ws => some (min 100 (ws.sum / sevs.length))

/-- The aggregate risk score as the specification words it (spec section
8): min(100, round(mean of weights)).  Stated only to be compared with
risk_score. -/
def spec_risk_score (sevs : List String) : Option ℤ :=
  if sevs.isEmpty then some 0
  else
    match sevs.mapM severity_weight with
    | none => none
    | some ws => some (min 100 (round ((ws.sum : ℚ) / sevs.length)))

/-- One run of the epoch loop of CloudSecurityTrainer.train (train.py
lines 74-107), given the per-epoch validation AUC values.  State carried
exactly as in the source: best is best_val_auc (initialised 0.0),
counter is patience_counter, saved is the epoch index of the checkpoint
last written by save_model (none if no checkpoint was ever written), idx
is the 0-based epoch index.  Returns (number of executed epochs, saved).
An epoch with val_auc > best saves a checkpoint and resets the counter;
otherwise the counter is incremented and the loop breaks once it reaches
patience. -/
def train_loop (patience : ℕ) :
    List ℚ → ℚ → ℕ → Option ℕ → ℕ → ℕ × Option ℕ
  | [], _, _, saved, idx => (idx, saved)
  | v :: rest, best, counter, saved, idx =>
    if best < v then
      train_loop patience rest v 0 (some idx) (idx + 1)
    else if patience ≤ counter + 1 then
      (idx + 1, saved)
    else
      train_loop patience rest best (counter + 1) saved (idx + 1)

/-- CloudSecurityTrainer.train with the validation AUC of epoch i given
as vals[i] (so vals.length plays the role of num_epochs).  The saved
component abstracts the checkpoint file best_model.pt by the index of
the epoch whose weights it holds. -/
def run_train (vals : List ℚ) (patience : ℕ) : ℕ × Option ℕ :=
  train_loop patience vals 0 0 none 0

/-- The binary-task metric computation of CloudSecurityTrainer._validate
(train.py lines 234-243).  The external sklearn scorers roc_auc_score
and average_precision_score are passed in as parameters; they raise
(Except.error) on degenerate inputs, which is why the source guards the
calls.  The third component is the list of warnings the function logs;
the source contains no logging call, so it is always empty.  The result
is .ok exactly when the source raises no exception. -/
def validate_metrics (roc ap : List ℕ → List ℚ → Except String ℚ)
    (labels : List ℕ) (preds : List ℚ) : Except String (ℚ × ℚ × List String) :=
  if 0 < labels.sum then do
    let auc ← roc labels preds
    let a ← ap labels preds
    pure (auc, a, [])
  else
    pure (0, 0, [])

/-- The binary-task AUC/AP guard of CloudSecurityTrainer.evaluate
(train.py lines 376-406): identical zero-positive guard, again with no
logging call anywhere in the function. -/
def evaluate_metrics (roc ap : List ℕ → List ℚ → Except String ℚ)
    (labels : List ℕ) (preds : List ℚ) : Except String (ℚ × ℚ × List String) :=
  if 0 < labels.sum then do
    let auc ← roc labels preds
    let a ← ap labels preds
    pure (auc, a, [])
  else
    pure (0, 0, [])

/-- A node as CloudResourceGraph.fit_encoders reads it (graph_dataset.py
lines 36-69): the group key may be absent from the dict. -/
structure DNode where
  id : String
  group : Option String
deriving DecidableEq, Repr

/-- An edge as fit_encoders reads it: the label key may be absent. -/
structure DEdge where
  id : String
  label : Option String
deriving DecidableEq, Repr

/-- A graph dict as fit_encoders consumes it. -/
structure DGraph where
  nodes : List DNode
  edges : List DEdge
deriving DecidableEq, Repr

/-- The distinct node-type values of a corpus, as the Python set
node_types collected by fit_encoders. -/
def corpus_node_types (graphs : List DGraph) : Finset String :=
  ((graphs.map fun g => g.nodes.filterMap (·.group)).flatten).toFinset

/-- The distinct relation values of a corpus, as the Python set
edge_types collected by fit_encoders. -/
def corpus_edge_types (graphs : List DGraph) : Finset String :=
  ((graphs.map fun g => g.edges.filterMap (·.label)).flatten).toFinset

/-- node_type_mapping built by fit_encoders: {t: i for i, t in
enumerate(sorted(node_types))}, as an association list in enumeration
order. -/
def node_type_mapping (graphs : List DGraph) : List (String × ℕ) :=
  (((corpus_node_types graphs).sort (· ≤ ·)).enum).map fun p => (p.2, p.1)

/-- edge_type_mapping built by fit_encoders, same construction over the
relation values. -/
def edge_type_mapping (graphs : List DGraph) : List (String × ℕ) :=
  (((corpus_edge_types graphs).sort (· ≤ ·)).enum).map fun p => (p.2, p.1)

/-- An edge as CloudSecurityGraphGenerator builds it (graph_dataset.py):
dict keys id, from, to, label.  The Python key from is a Lean keyword,
hence the field names from_ and to_. -/
structure GEdge where
  id : String
  from_ : String
  to_ : String
  label : String
deriving DecidableEq, Repr

/-- An anomaly descriptor returned by the five pattern functions. -/
structure Anomaly where
  type_ : String
  description : String
  affected_nodes : List String
  severity : String
deriving DecidableEq, Repr

/-- Result of mutating (nodes, edges) in place and returning an optional
descriptor, as every pattern function does. -/
structure PatternResult where
  nodes : List CNode
  edges : List GEdge
  anomaly : Option Anomaly
deriving DecidableEq, Repr

/-- np.random.choice over a non-empty list, the draw being supplied as
an arbitrary natural number reduced mod the length.  On the empty list
numpy raises; every pattern checks emptiness before drawing, and the
one place a later filter could theoretically be empty (two distinct
nodes sharing an id) cannot arise from generate_graph, whose node ids
are distinct; none models that unreachable case. -/
def np_choice (l : List CNode) (draw : ℕ) : Option CNode :=
  l.get? (draw % l.length)

/-- The random draws one application of an anomaly pattern consumes, as
explicit parameters (at most three node choices per pattern). -/
structure PatternDraws where
  a : ℕ
  b : ℕ
  c : ℕ
deriving DecidableEq, Repr

/-- CloudSecurityGraphGenerator._excessive_permissions_pattern
(graph_dataset.py lines 382-430): pick an identity node, add writes
edges from it to the first min(5, len) sensitive (database/storage)
nodes; no identity or no sensitive node means no mutation and no
descriptor. -/
def excessive_permissions_pattern (d : PatternDraws)
    (nodes : List CNode) (edges : List GEdge) : PatternResult :=
  let identity_nodes := nodes.filter fun n => n.group = "identity"
  match np_choice identity_nodes d.a with
  | none => ⟨nodes, edges, none⟩
  | some identity_node =>
    let sensitive_nodes := nodes.filter fun n => n.group = "database" ∨ n.group = "storage"
    if sensitive_nodes = [] then ⟨nodes, edges, none⟩
    else
      let new_edges := ((sensitive_nodes.take (min 5 sensitive_nodes.length)).enum).map
        fun p => GEdge.mk ("anomaly-edge-" ++ toString (edges.length + p.1))
          identity_node.id p.2.id "writes"
      ⟨nodes, edges ++ new_edges,
        some ⟨"excessive_permissions",
          "Identity has excessive permissions to sensitive resources",
          identity_node.id :: (sensitive_nodes.take (min 5 sensitive_nodes.length)).map (·.id),
          "high"⟩⟩

/-- CloudSecurityGraphGenerator._unusual_access_pattern (graph_dataset.py
lines 432-468): an executes edge between two distinct compute nodes;
fewer than two compute nodes means no mutation and no descriptor. -/
def unusual_access_pattern (d : PatternDraws)
    (nodes : List CNode) (edges : List GEdge) : PatternResult :=
  let compute_nodes := nodes.filter fun n => n.group = "compute"
  if compute_nodes.length < 2 then ⟨nodes, edges, none⟩
  else
    match np_choice compute_nodes d.a with
    | none => ⟨nodes, edges, none⟩
    | some source_node =>
      match np_choice (compute_nodes.filter fun n => n.id ≠ source_node.id) d.b with
      | none => ⟨nodes, edges, none⟩
      | some target_node =>
        ⟨nodes,
          edges ++ [⟨"anomaly-edge-" ++ toString edges.length,
            source_node.id, target_node.id, "executes"⟩],
          some ⟨"unusual_access",
            "Compute instance accessing another compute instance in an unusual way",
            [source_node.id, target_node.id], "medium"⟩⟩

/-- CloudSecurityGraphGenerator._insecure_configuration_pattern
(graph_dataset.py lines 470-516): a reads edge from the singleton
public-internet node (appended first if absent) into a storage node; no
storage node means no mutation and no descriptor. -/
def insecure_configuration_pattern (d : PatternDraws)
    (nodes : List CNode) (edges : List GEdge) : PatternResult :=
  let storage_nodes := nodes.filter fun n => n.group = "storage"
  match np_choice storage_nodes d.a with
  | none => ⟨nodes, edges, none⟩
  | some storage_node =>
    let public_node_id := "public-internet"
    let nodes' :=
      if ∃ n ∈ nodes, n.id = public_node_id then nodes
      else nodes ++ [⟨public_node_id, "Public Internet", "network"⟩]
    ⟨nodes',
      edges ++ [⟨"anomaly-edge-" ++ toString edges.length,
        public_node_id, storage_node.id, "reads"⟩],
      some ⟨"insecure_configuration",
        "Storage resource is publicly accessible",
        [storage_node.id], "critical"⟩⟩

/-- CloudSecurityGraphGenerator._privilege_escalation_pattern
(graph_dataset.py lines 518-573): a writes edge from a low-privilege
identity node to a non-identity intermediate node and a trusts edge from
there to a distinct identity node; fewer than two identity nodes or no
intermediate node means no mutation and no descriptor. -/
def privilege_escalation_pattern (d : PatternDraws)
    (nodes : List CNode) (edges : List GEdge) : PatternResult :=
  let identity_nodes := nodes.filter fun n => n.group = "identity"
  if identity_nodes.length < 2 then ⟨nodes, edges, none⟩
  else
    match np_choice identity_nodes d.a with
    | none => ⟨nodes, edges, none⟩
    | some low_priv_node =>
      match np_choice (identity_nodes.filter fun n => n.id ≠ low_priv_node.id) d.b with
      | none => ⟨nodes, edges, none⟩
      | some high_priv_node =>
        match np_choice (nodes.filter fun n => n.group ≠ "identity") d.c with
        | none => ⟨nodes, edges, none⟩
        | some intermediate_node =>
          let edge_id := "anomaly-edge-" ++ toString edges.length
          ⟨nodes,
            edges ++ [⟨edge_id, low_priv_node.id, intermediate_node.id, "writes"⟩,
              ⟨edge_id ++ "-2", intermediate_node.id, high_priv_node.id, "trusts"⟩],
            some ⟨"privilege_escalation",
              "Potential privilege escalation path detected",
              [low_priv_node.id, intermediate_node.id, high_priv_node.id],
              "critical"⟩⟩

/-- CloudSecurityGraphGenerator._data_exfiltration_pattern
(graph_dataset.py lines 575-636): a compute node reads a storage or
database node and writes to the singleton external-endpoint node
(appended first if absent); no storage/database or no compute node means
no mutation and no descriptor. -/
def data_exfiltration_pattern (d : PatternDraws)
    (nodes : List CNode) (edges : List GEdge) : PatternResult :=
  let storage_nodes := nodes.filter fun n => n.group = "storage" ∨ n.group = "database"
  let compute_nodes := nodes.filter fun n => n.group = "compute"
  if storage_nodes = [] ∨ compute_nodes = [] then ⟨nodes, edges, none⟩
  else
    match np_choice storage_nodes d.a, np_choice compute_nodes d.b with
    | some storage_node, some compute_node =>
      let external_node_id := "external-endpoint"
      let nodes' :=
        if ∃ n ∈ nodes, n.id = external_node_id then nodes
        else nodes ++ [⟨external_node_id, "External Endpoint", "network"⟩]
      ⟨nodes',
        edges ++ [⟨"anomaly-edge-" ++ toString edges.length,
          compute_node.id, storage_node.id, "reads"⟩,
          ⟨"anomaly-edge-" ++ toString (edges.length + 1),
          compute_node.id, external_node_id, "writes"⟩],
        some ⟨"data_exfiltration",
          "Potential data exfiltration path detected",
          [compute_node.id, storage_node.id, external_node_id],
          "critical"⟩⟩
    | _, _ => ⟨nodes, edges, none⟩

/-- Dispatch over self.anomaly_patterns in list order, the uniform draw
of np.random.choice given as an index mod 5. -/
def apply_pattern (k : ℕ) (d : PatternDraws)
    (nodes : List CNode) (edges : List GEdge) : PatternResult :=
  match k % 5 with
  | 0 => excessive_permissions_pattern d nodes edges
  | 1 => unusual_access_pattern d nodes edges
  | 2 => insecure_configuration_pattern d nodes edges
  | 3 => privilege_escalation_pattern d nodes edges
  | _ => data_exfiltration_pattern d nodes edges

/-- The random draws one call of generate_graph consumes: the resource
type drawn for each node, the Bernoulli trial and relation drawn for
each ordered node pair, whether an anomaly is injected, which pattern is
picked, and the draws inside the pattern.  type_draw and rel_draw give
the drawn value directly, subsuming every outcome of a draw from the
fixed taxonomies. -/
structure GraphDraws where
  type_draw : ℕ → String
  edge_on : ℕ → ℕ → Bool
  rel_draw : ℕ → ℕ → String
  do_anomaly : Bool
  pattern : ℕ
  pd : PatternDraws

/-- A generated graph: nodes, edges, injected anomaly descriptors, and
the node-level labels derived from them. -/
structure GenGraph where
  nodes : List CNode
  edges : List GEdge
  anomalies : List Anomaly
  node_labels : List (String × ℕ)
deriving Repr

/-- CloudSecurityGraphGenerator._generate_node_labels (graph_dataset.py
lines 361-380): every node id maps to 0, then ids in any affected_nodes
list are set to 1. -/
def generate_node_labels (nodes : List CNode) (anomalies : List Anomaly) :
    List (String × ℕ) :=
  nodes.map fun n =>
    (n.id, if anomalies.any fun a => a.affected_nodes.contains n.id then 1 else 0)

/-- The node list built by generate_graph (graph_dataset.py lines
283-291): nodes node-0 .. node-(n-1) with drawn types. -/
def gen_nodes (num_nodes : ℕ) (g : GraphDraws) : List CNode :=
  (List.range num_nodes).map fun i =>
    CNode.mk ("node-" ++ toString i) (g.type_draw i ++ "-" ++ toString i) (g.type_draw i)

/-- The ordered pairs (i, j), i outer loop and j inner loop, of distinct
indices whose Bernoulli trial succeeded. -/
def gen_pairs (num_nodes : ℕ) (g : GraphDraws) : List (ℕ × ℕ) :=
  ((List.range num_nodes).map fun i =>
    (List.range num_nodes).filterMap fun j =>
      if i ≠ j ∧ g.edge_on i j then some (i, j) else none).flatten

/-- The base edge list, ids edge-0, edge-1, ... in loop order. -/
def gen_edges (num_nodes : ℕ) (g : GraphDraws) : List GEdge :=
  ((gen_pairs num_nodes g).enum).map fun p =>
    GEdge.mk ("edge-" ++ toString p.1) ("node-" ++ toString p.2.1)
      ("node-" ++ toString p.2.2) (g.rel_draw p.2.1 p.2.2)

/-- CloudSecurityGraphGenerator.generate_graph (graph_dataset.py lines
265-323): the drawn nodes and edges, then at most one anomaly pattern
applied in place, then the anomaly list and node labels of the returned
dict. -/
def generate_graph (num_nodes : ℕ) (g : GraphDraws) : GenGraph :=
  let nodes := gen_nodes num_nodes g
  let edges := gen_edges num_nodes g
  let r :=
    if g.do_anomaly then apply_pattern g.pattern g.pd nodes edges
    else ⟨nodes, edges, none⟩
  let anomalies := match r.anomaly with | some a => [a] | none => []
  ⟨r.nodes, r.edges, anomalies, generate_node_labels r.nodes anomalies⟩

/-- The ids of a node list, as used to check edge endpoints. -/
def node_ids (nodes : List CNode) : List String :=
  nodes.map CNode.id

/-- Claim C1 counterexample: the code assigns severity medium to score
0.75 and low to score exactly 0.7, while the claimed step function
assigns high to both; so the claim, stated for every score, fails at
0.75 and at 0.7. -/
theorem c1_counterexample :
    determine_severity (mkRat 3 4) = "medium" ∧
    spec_severity (mkRat 3 4) = "high" ∧
    determine_severity (mkRat 3 4) ≠ spec_severity (mkRat 3 4) ∧
    determine_severity (mkRat 7 10) = "low" ∧
    determine_severity (mkRat 7 10) ≠ "high" := by
  refine ⟨by decide, by decide, by decide, by decide, by decide⟩

/-- Claim C1 (amended): the severity assigned to a finding is the
deterministic step function of the anomaly probability implemented by
the code: s > 0.9 critical, 0.8 < s <= 0.9 high, 0.7 < s <= 0.8 medium,
otherwise low; in particular 0.95 yields critical, 0.75 yields medium
and exactly 0.7 yields low. -/
theorem c1_severity_step (s : ℚ) :
    (mkRat 9 10 < s → determine_severity s = "critical") ∧
    (mkRat 8 10 < s → s ≤ mkRat 9 10 → determine_severity s = "high") ∧
    (mkRat 7 10 < s → s ≤ mkRat 8 10 → determine_severity s = "medium") ∧
    (s ≤ mkRat 7 10 → determine_severity s = "low") := by
  refine ⟨fun h => ?_, fun h h9 => ?_, fun h h8 => ?_, fun h7 => ?_⟩
  · rw [determine_severity, if_pos h]
  · rw [determine_severity, if_neg (not_lt.mpr h9), if_pos h]
  · rw [determine_severity, if_neg (not_lt.mpr (h8.trans (by decide))),
      if_neg (not_lt.mpr h8), if_pos h]
  · rw [determine_severity, if_neg (not_lt.mpr (h7.trans (by decide))),
      if_neg (not_lt.mpr (h7.trans (by decide))), if_neg (not_lt.mpr h7)]

/-- Claim C1 witness: the amended step function evaluated at 0.95, 0.85,
0.75 and 0.7. -/
theorem c1_severity_step_witness :
    determine_severity (mkRat 19 20) = "critical" ∧
    determine_severity (mkRat 17 20) = "high" ∧
    determine_severity (mkRat 3 4) = "medium" ∧
    determine_severity (mkRat 7 10) = "low" :=
  ⟨(c1_severity_step (mkRat 19 20)).1 (by decide),
   (c1_severity_step (mkRat 17 20)).2.1 (by decide) (by decide),
   (c1_severity_step (mkRat 3 4)).2.2.1 (by decide) (by decide),
   (c1_severity_step (mkRat 7 10)).2.2.2 (by decide)⟩

/-- Claim C2 counterexample: for the findings [critical, high, high,
high] the mean weight is 77.5; the code truncates to 77 while the
claimed round gives 78. -/
theorem c2_counterexample :
    risk_score ["critical", "high", "high", "high"] = some 77 ∧
    spec_risk_score ["critical", "high", "high", "high"] = some 78 := by
  constructor
  · decide
  · have h : spec_risk_score ["critical", "high", "high", "high"] =
        some (min 100 (round ((((310 : ℕ) : ℚ)) / ((4 : ℕ) : ℚ)))) := rfl
    rw [h]
    norm_num [round_eq]

/-- Claim C2 (amended): for every list of findings whose severities all
lie in the weight table, the aggregate risk_score is min(100, floor of
the mean severity weight) - the code truncates the mean rather than
rounding it - and for an empty list it is 0 exactly. -/
theorem c2_risk_score (sevs : List String) (ws : List ℕ)
    (h : sevs.mapM severity_weight = some ws) (hne : sevs ≠ []) :
    risk_score [] = some 0 ∧
    risk_score sevs = some (min 100 (Nat.floor ((ws.sum : ℚ) / (sevs.length : ℚ)))) := by
  refine ⟨by decide, ?_⟩
  rw [risk_score, if_neg (by simpa using hne), h, Nat.floor_div_nat, Nat.floor_natCast]

/-- Claim C2 witness: the amended formula evaluated on the findings
[critical, high, high, high]. -/
theorem c2_risk_score_witness :
    risk_score [] = some 0 ∧
    risk_score ["critical", "high", "high", "high"] =
      some (min 100 (Nat.floor ((([100, 70, 70, 70] : List ℕ).sum : ℚ) /
        ((["critical", "high", "high", "high"] : List String).length : ℚ)))) :=
  c2_risk_score ["critical", "high", "high", "high"] [100, 70, 70, 70]
    (by decide) (by decide)

/-- Claim C9 counterexample: with zero positive labels the computed AUC
and AP are the 0.0 sentinel and no exception is raised, but the list of
warnings logged is empty - train.py contains no logging call - so the
claimed warning is never logged. -/
theorem c9_counterexample :
    validate_metrics (fun _ _ => Except.error "ValueError")
      (fun _ _ => Except.error "ValueError") [0, 0] [mkRat 1 2, mkRat 1 2] =
      Except.ok (0, 0, ([] : List String)) ∧
    evaluate_metrics (fun _ _ => Except.error "ValueError")
      (fun _ _ => Except.error "ValueError") [0, 0] [mkRat 1 2, mkRat 1 2] =
      Except.ok (0, 0, ([] : List String)) := by
  constructor <;> rfl

/-- Claim C9 (amended): during validation and evaluation, if the label
set contains zero positive labels then the computed AUC and AP are the
sentinel 0.0 and no exception is raised, whatever the external sklearn
scorers would do; no warning is logged (the warning list is empty). -/
theorem c9_zero_positives (roc ap : List ℕ → List ℚ → Except String ℚ)
    (labels : List ℕ) (preds : List ℚ) (h : labels.sum = 0) :
    validate_metrics roc ap labels preds = Except.ok (0, 0, ([] : List String)) ∧
    evaluate_metrics roc ap labels preds = Except.ok (0, 0, ([] : List String)) := by
  rw [validate_metrics, evaluate_metrics, if_neg (by omega)]
  exact ⟨rfl, rfl⟩

/-- Claim C9 witness: the zero-positive guard at the concrete label
list [0, 0], with scorers that would raise. -/
theorem c9_zero_positives_witness :
    validate_metrics (fun _ _ => Except.error "ValueError")
      (fun _ _ => Except.error "ValueError") [0, 0] [mkRat 1 3, mkRat 2 3] =
      Except.ok (0, 0, ([] : List String)) ∧
    evaluate_metrics (fun _ _ => Except.error "ValueError")
      (fun _ _ => Except.error "ValueError") [0, 0] [mkRat 1 3, mkRat 2 3] =
      Except.ok (0, 0, ([] : List String)) :=
  c9_zero_positives _ _ [0, 0] [mkRat 1 3, mkRat 2 3] (by decide)


/-- Helper: once the loop is on a plateau (every remaining value at most
best) with the counter at c < patience, it runs exactly patience - c
further epochs and then stops, never writing another checkpoint. -/
theorem train_loop_plateau (patience : ℕ) (best : ℚ) (saved : Option ℕ) :
    ∀ (post : List ℚ) (c idx : ℕ), c < patience → patience - c ≤ post.length →
      (∀ v ∈ post, v ≤ best) →
      train_loop patience post best c saved idx = (idx + (patience - c), saved) := by
  intro post
  induction post with
  | nil =>
    intro c idx hc hlen _
    exfalso
    simp at hlen
    omega
  | cons v rest ih =>
    intro c idx hc hlen hle
    have hv : ¬ best < v := not_lt.mpr (hle v (List.mem_cons_self v rest))
    rw [train_loop, if_neg hv]
    by_cases hstop : patience ≤ c + 1
    · rw [if_pos hstop]
      have : patience - c = 1 := by omega
      rw [this]
    · rw [if_neg hstop]
      rw [ih (c + 1) (idx + 1) (by omega) (by simp at hlen ⊢; omega)
        (fun w hw => hle w (List.mem_cons_of_mem v hw))]
      have : idx + 1 + (patience - (c + 1)) = idx + (patience - c) := by omega
      rw [this]

/-- Helper: a strictly climbing phase (each value beats the running
best) saves a checkpoint at every one of its epochs; afterwards the
best value is the last of the phase, the counter is reset and the last
checkpoint written is the last epoch of the phase. -/
theorem train_loop_climb (patience : ℕ) :
    ∀ (pre : List ℚ) (best : ℚ) (counter : ℕ) (saved : Option ℕ) (idx : ℕ)
      (rest : List ℚ), pre ≠ [] → List.Chain (· < ·) best pre →
      train_loop patience (pre ++ rest) best counter saved idx =
        train_loop patience rest (pre.getLastD best) 0
          (some (idx + pre.length - 1)) (idx + pre.length) := by
  intro pre
  induction pre with
  | nil => intro _ _ _ _ _ hne _; exact absurd rfl hne
  | cons v tl ih =>
    intro best counter saved idx rest _ hchain
    rw [List.chain_cons] at hchain
    rw [List.cons_append, train_loop, if_pos hchain.1]
    cases tl with
    | nil => simp [train_loop]
    | cons w tl' =>
      rw [ih v 0 (some idx) (idx + 1) rest (by simp) hchain.2]
      have h1 : (v :: w :: tl').getLastD best = (w :: tl').getLastD v := by
        simp [List.getLastD]
      have h2 : idx + 1 + (w :: tl').length - 1 = idx + (v :: w :: tl').length - 1 := by
        simp
        omega
      have h3 : idx + 1 + (w :: tl').length = idx + (v :: w :: tl').length := by
        simp
        omega
      rw [h1, h2, h3]

/-- Claim C10: if no epoch's validation AUC strictly exceeds 0.0 (as
when every AUC is the zero-positive sentinel), the trainer never writes
a checkpoint: best_val_auc stays at its initial 0.0, every epoch is
non-improving, and the run stops after the first patience epochs with
no model saved (given at least patience epochs are scheduled). -/
theorem c10_no_checkpoint (vals : List ℚ) (patience : ℕ)
    (hvals : ∀ v ∈ vals, v ≤ 0) (hp : 1 ≤ patience)
    (hlen : patience ≤ vals.length) :
    run_train vals patience = (patience, none) := by
  rw [run_train, train_loop_plateau patience 0 none vals 0 0 (by omega) (by omega) hvals]
  simp

/-- Claim C10 witness: ten sentinel epochs with the default patience 10
end the run at epoch 10 with no checkpoint. -/
theorem c10_no_checkpoint_witness :
    run_train (List.replicate 10 0) 10 = (10, none) :=
  c10_no_checkpoint (List.replicate 10 0) 10 (by decide) (by decide) (by decide)

/-- Claim C5 counterexample: the validation-AUC sequence 1.0, 0.5, 0,
..., 0 (ten zeros) with patience 10 satisfies the claim's hypothesis at
k = 1 - the value at epoch 1 is strictly greater than all later values -
yet the loop breaks during epoch 10, not epoch k + patience = 11, and
the checkpoint on disk is the one written at epoch 0 (the earlier,
higher peak), not epoch k. -/
theorem c5_counterexample :
    (∀ j, j < ([1, mkRat 1 2] ++ List.replicate 10 0).length → 1 < j →
      ([1, mkRat 1 2] ++ List.replicate 10 0).getD j 0 <
        ([1, mkRat 1 2] ++ List.replicate 10 0).getD 1 0) ∧
    run_train ([1, mkRat 1 2] ++ List.replicate 10 0) 10 = (11, some 0) ∧
    (11, some 0) ≠ (1 + 10 + 1, (some 1 : Option ℕ)) := by
  refine ⟨by decide, by decide, by decide⟩

/-- Claim C5 (amended): for a validation-AUC sequence that climbs
strictly through epoch k - each of epochs 0..k improves on the running
best, which starts at 0.0 - and afterwards stays strictly below the
epoch-k value, with more than k + patience epochs scheduled, the loop
breaks during epoch k + patience (0-indexed; epochs 0..k+patience run,
so k + patience + 1 epochs execute) and the checkpoint on disk is the
one written at epoch k, not the weights of the final executed epoch. -/
theorem c5_early_stopping (pre post : List ℚ) (patience k : ℕ)
    (hk : pre.length = k + 1) (hchain : List.Chain (· < ·) 0 pre)
    (hpost : ∀ v ∈ post, v < pre.getLastD 0)
    (hplen : patience ≤ post.length) (hp : 1 ≤ patience) :
    run_train (pre ++ post) patience = (k + patience + 1, some k) := by
  have hne : pre ≠ [] := by intro h; rw [h] at hk; simp at hk
  rw [run_train, train_loop_climb patience pre 0 0 none 0 post hne hchain]
  rw [train_loop_plateau patience (pre.getLastD 0) (some (0 + pre.length - 1)) post 0
    (0 + pre.length) (by omega) (by omega) (fun v hv => le_of_lt (hpost v hv))]
  rw [hk]
  have h1 : 0 + (k + 1) + (patience - 0) = k + patience + 1 := by omega
  have h2 : 0 + (k + 1) - 1 = k := by omega
  rw [h1, h2]


/-- Claim C5 witness: AUCs 0.5 then 0.75 (epochs 0 and 1), then ten
epochs at 0.25, with patience 10: the loop executes epochs 0..11 and the
checkpoint on disk is epoch 1's. -/
theorem c5_early_stopping_witness :
    run_train ([mkRat 1 2, mkRat 3 4] ++ List.replicate 10 (mkRat 1 4)) 10 =
      (1 + 10 + 1, some 1) :=
  c5_early_stopping [mkRat 1 2, mkRat 3 4] (List.replicate 10 (mkRat 1 4)) 10 1
    (by decide)
    (List.Chain.cons (by decide) (List.Chain.cons (by decide) List.Chain.nil))
    (by decide) (by decide) (by decide)

/-- Helper: filtering a function of the element over an enumerated list
is filtering over the list itself; the enumeration index only feeds the
fresh finding id, which the node_id projection discards. -/
theorem filterMap_enumFrom_node_id (t : ℚ) :
    ∀ (l : List (CNode × ℚ)) (n : ℕ),
      ((l.enumFrom n).filterMap fun p =>
        if t < p.2.2 then some p.2.1.id else none)
      = l.filterMap fun q => if t < q.2 then some q.1.id else none := by
  intro l
  induction l with
  | nil => intro n; rfl
  | cons a l ih =>
    intro n
    simp only [List.enumFrom, List.filterMap_cons]
    by_cases hc : t < a.2
    · rw [if_pos hc, ih (n + 1)]
    · rw [if_neg hc, ih (n + 1)]

/-- Helper: the node ids of the findings of detect_anomalies are the
ids of the zipped (node, prediction) pairs that clear the threshold. -/
theorem detect_map_node_id (u : ℕ → String) (now : String) (t : ℚ)
    (nodes : List CNode) (edges : List IEdge) (preds : List ℚ) :
    (detect_anomalies u now t nodes edges preds).map Finding.node_id
      = (nodes.zip preds).filterMap fun q => if t < q.2 then some q.1.id else none := by
  rw [detect_anomalies, List.map_filterMap]
  have h : (fun p : ℕ × CNode × ℚ =>
      Option.map Finding.node_id (if t < p.2.2 then
        some { id := u p.1, node_id := p.2.1.id, node_type := p.2.1.group,
               node_label := p.2.1.label, severity := determine_severity p.2.2,
               confidence_score := p.2.2, timestamp := now,
               connected_nodes := get_connected_nodes p.2.1.id edges }
        else none))
      = fun p : ℕ × CNode × ℚ => if t < p.2.2 then some p.2.1.id else none := by
    funext p
    by_cases hc : t < p.2.2
    · rw [if_pos hc, if_pos hc]
      rfl
    · rw [if_neg hc, if_neg hc]
      rfl
  rw [h]
  exact filterMap_enumFrom_node_id t (nodes.zip preds) 0

/-- Helper: when the node ids are distinct, a node determines its
unique partner in the zip with the prediction list. -/
theorem mem_zip_id_unique :
    ∀ (nodes : List CNode) (preds : List ℚ), (nodes.map CNode.id).Nodup →
      ∀ (a : CNode) (b : ℚ) (a' : CNode) (b' : ℚ),
        (a, b) ∈ nodes.zip preds → (a', b') ∈ nodes.zip preds →
        a.id = a'.id → a = a' ∧ b = b' := by
  intro nodes
  induction nodes with
  | nil => intro preds _ a b a' b' h1; simp [List.zip] at h1
  | cons x xs ih =>
    intro preds h a b a' b' h1 h2 hid
    cases preds with
    | nil => simp [List.zip] at h1
    | cons p ps =>
      simp only [List.nodup_cons, List.map_cons] at h
      simp only [List.zip_cons_cons, List.mem_cons, Prod.mk.injEq] at h1 h2
      rcases h1 with ⟨ha, hb⟩ | h1 <;> rcases h2 with ⟨ha', hb'⟩ | h2
      · exact ⟨ha.trans ha'.symm, hb.trans hb'.symm⟩
      · exfalso
        apply h.1
        rw [← ha, hid]
        exact List.mem_map_of_mem CNode.id (List.of_mem_zip h2).1
      · exfalso
        apply h.1
        rw [← ha', ← hid]
        exact List.mem_map_of_mem CNode.id (List.of_mem_zip h1).1
      · exact ih ps h.2 a b a' b' h1 h2 hid

/-- Claim C3: for distinct node ids and one prediction per node,
detect_anomalies emits a finding exactly for the nodes whose anomaly
score strictly exceeds the threshold, and if every score is at most the
threshold the result is the empty list. -/
theorem c3_threshold_filter (u : ℕ → String) (now : String) (t : ℚ)
    (nodes : List CNode) (edges : List IEdge) (preds : List ℚ)
    (hnodup : (nodes.map CNode.id).Nodup) :
    (∀ q ∈ nodes.zip preds,
      (q.1.id ∈ (detect_anomalies u now t nodes edges preds).map Finding.node_id ↔
        t < q.2))
    ∧ ((∀ s ∈ preds, s ≤ t) → detect_anomalies u now t nodes edges preds = []) := by
  constructor
  · intro q hq
    rw [detect_map_node_id, List.mem_filterMap]
    constructor
    · rintro ⟨a, ha, hsome⟩
      by_cases hc : t < a.2
      · rw [if_pos hc] at hsome
        obtain ⟨-, hb⟩ := mem_zip_id_unique nodes preds hnodup a.1 a.2 q.1 q.2
          (by simpa using ha) (by simpa using hq) (Option.some.inj hsome)
        rw [← hb]
        exact hc
      · rw [if_neg hc] at hsome
        exact absurd hsome (by simp)
    · intro hc
      exact ⟨q, hq, by rw [if_pos hc]⟩
  · intro hall
    have hmap : (detect_anomalies u now t nodes edges preds).map Finding.node_id = [] := by
      rw [detect_map_node_id]
      apply List.filterMap_eq_nil_iff.mpr
      intro q hq
      rw [if_neg (not_lt.mpr (hall q.2 (List.of_mem_zip (show (q.1, q.2) ∈ _ by simpa using hq)).2))]
    exact List.map_eq_nil_iff.mp hmap

/-- Claim C3 witness: with the default threshold 0.7 over two nodes,
the node scoring 0.9 is flagged and the node scoring 0.2 is not; with
both scores below the threshold no finding is emitted. -/
theorem c3_threshold_filter_witness :
    (("B" : String) ∈ (detect_anomalies (fun i => "f-" ++ toString i) "t0" (mkRat 7 10)
      [⟨"A", "a", "compute"⟩, ⟨"B", "b", "storage"⟩] []
      [mkRat 1 5, mkRat 9 10]).map Finding.node_id ↔ mkRat 7 10 < mkRat 9 10)
    ∧ detect_anomalies (fun i => "f-" ++ toString i) "t0" (mkRat 7 10)
      [⟨"A", "a", "compute"⟩, ⟨"B", "b", "storage"⟩] []
      [mkRat 1 5, mkRat 1 2] = [] :=
  ⟨(c3_threshold_filter (fun i => "f-" ++ toString i) "t0" (mkRat 7 10)
      [⟨"A", "a", "compute"⟩, ⟨"B", "b", "storage"⟩] [] [mkRat 1 5, mkRat 9 10]
      (by decide)).1 (⟨"B", "b", "storage"⟩, mkRat 9 10) (by decide),
   (c3_threshold_filter (fun i => "f-" ++ toString i) "t0" (mkRat 7 10)
      [⟨"A", "a", "compute"⟩, ⟨"B", "b", "storage"⟩] [] [mkRat 1 5, mkRat 1 2]
      (by decide)).2 (by decide)⟩

/-- Claim C4 counterexample: with two parallel edges A to B, the flagged
node B's connected_nodes list is [A, A] - one entry per incident edge,
with duplicates - so it is not the duplicate-free set the claim
states. -/
theorem c4_counterexample :
    (detect_anomalies (fun i => "f-" ++ toString i) "t0" (mkRat 7 10)
      [⟨"A", "a", "compute"⟩, ⟨"B", "b", "compute"⟩]
      [⟨"e1", "A", "B"⟩, ⟨"e2", "A", "B"⟩]
      [0, mkRat 9 10]).map (fun f => f.connected_nodes) = [["A", "A"]]
    ∧ ¬ (["A", "A"] : List String).Nodup := by
  refine ⟨by decide, by decide⟩

/-- Claim C4 (amended): a finding's connected_nodes lists the opposite
endpoint of every edge touching the node in either direction, so as a
set it is exactly the undirected neighbourhood, but one entry is
produced per incident edge and duplicates can occur; in the concrete
3-node scenario A to B, B to C with only B above threshold, exactly one
finding is produced, for B, with connected_nodes [A, C]. -/
theorem c4_connected_nodes :
    (∀ (nid : String) (edges : List IEdge) (x : String),
      x ∈ get_connected_nodes nid edges ↔
        ∃ e ∈ edges, (e.from_id = nid ∧ x = e.to_id) ∨ (e.to_id = nid ∧ x = e.from_id))
    ∧ (detect_anomalies (fun i => "f-" ++ toString i) "t0" (mkRat 7 10)
        [⟨"A", "a", "compute"⟩, ⟨"B", "b", "compute"⟩, ⟨"C", "c", "compute"⟩]
        [⟨"e1", "A", "B"⟩, ⟨"e2", "B", "C"⟩]
        [0, mkRat 9 10, 0]).map (fun f => (f.node_id, f.connected_nodes)) =
        [("B", ["A", "C"])] := by
  constructor
  · intro nid edges x
    rw [get_connected_nodes, List.mem_filterMap]
    constructor
    · rintro ⟨e, he, hsome⟩
      by_cases h1 : e.from_id = nid
      · rw [if_pos h1] at hsome
        exact ⟨e, he, Or.inl ⟨h1, (Option.some.inj hsome).symm⟩⟩
      · rw [if_neg h1] at hsome
        by_cases h2 : e.to_id = nid
        · rw [if_pos h2] at hsome
          exact ⟨e, he, Or.inr ⟨h2, (Option.some.inj hsome).symm⟩⟩
        · rw [if_neg h2] at hsome
          exact absurd hsome (by simp)
    · rintro ⟨e, he, ⟨h1, hx⟩ | ⟨h2, hx⟩⟩
      · exact ⟨e, he, by rw [if_pos h1, hx]⟩
      · refine ⟨e, he, ?_⟩
        by_cases h1 : e.from_id = nid
        · rw [if_pos h1, hx, h1, ← h2]
        · rw [if_neg h1, if_pos h2, hx]
  · decide


/-- Helper: a numpy draw from a non-empty list yields some member of
the list. -/
theorem np_choice_of_ne_nil {l : List CNode} (h : l ≠ []) (d : ℕ) :
    ∃ n, np_choice l d = some n ∧ n ∈ l := by
  have hlt : d % l.length < l.length := Nat.mod_lt _ (List.length_pos.mpr h)
  rw [np_choice, List.get?_eq_get hlt]
  exact ⟨l.get ⟨d % l.length, hlt⟩, rfl, List.get_mem l _ _⟩

/-- Helper: a numpy draw yielding a value yields a member. -/
theorem np_choice_mem {l : List CNode} {d : ℕ} {n : CNode}
    (h : np_choice l d = some n) : n ∈ l :=
  List.get?_mem h

/-- Claim C7: on a graph with at least one identity node and at least
one sensitive (database or storage) node, the excessive-permissions
pattern leaves the node list unchanged, appends exactly
min(5, number of sensitive nodes) new edges - all writes edges leaving
one identity node - and returns a descriptor; on a graph with no
identity node it returns no descriptor and leaves nodes and edges
completely unchanged. -/
theorem c7_excessive_permissions (d : PatternDraws)
    (nodes : List CNode) (edges : List GEdge) :
    ((nodes.filter fun n => n.group = "identity") ≠ [] →
      (nodes.filter fun n => n.group = "database" ∨ n.group = "storage") ≠ [] →
      ∃ ident new_edges,
        ident ∈ nodes.filter (fun n => n.group = "identity") ∧
        (excessive_permissions_pattern d nodes edges).nodes = nodes ∧
        (excessive_permissions_pattern d nodes edges).edges = edges ++ new_edges ∧
        new_edges.length =
          min 5 (nodes.filter fun n => n.group = "database" ∨ n.group = "storage").length ∧
        (∀ e ∈ new_edges, e.from_ = ident.id ∧ e.label = "writes") ∧
        (excessive_permissions_pattern d nodes edges).anomaly.isSome = true)
    ∧ ((nodes.filter fun n => n.group = "identity") = [] →
        excessive_permissions_pattern d nodes edges = ⟨nodes, edges, none⟩) := by
  constructor
  · intro hid hsens
    obtain ⟨ident, hch, hmem⟩ := np_choice_of_ne_nil hid d.a
    have hres : excessive_permissions_pattern d nodes edges =
        ⟨nodes,
          edges ++ (((nodes.filter fun n => n.group = "database" ∨ n.group = "storage").take
              (min 5 (nodes.filter fun n =>
                n.group = "database" ∨ n.group = "storage").length)).enum).map
            (fun p => GEdge.mk ("anomaly-edge-" ++ toString (edges.length + p.1))
              ident.id p.2.id "writes"),
          some ⟨"excessive_permissions",
            "Identity has excessive permissions to sensitive resources",
            ident.id :: ((nodes.filter fun n =>
              n.group = "database" ∨ n.group = "storage").take
                (min 5 (nodes.filter fun n =>
                  n.group = "database" ∨ n.group = "storage").length)).map (·.id),
            "high"⟩⟩ := by
      rw [excessive_permissions_pattern, hch]
      dsimp only
      rw [if_neg hsens]
    refine ⟨ident,
      (((nodes.filter fun n => n.group = "database" ∨ n.group = "storage").take
          (min 5 (nodes.filter fun n => n.group = "database" ∨ n.group = "storage").length)).enum).map
        (fun p => GEdge.mk ("anomaly-edge-" ++ toString (edges.length + p.1))
          ident.id p.2.id "writes"), hmem, ?_, ?_, ?_, ?_, ?_⟩
    · rw [hres]
    · rw [hres]
    · rw [List.length_map, List.enum_length, List.length_take]
      omega
    · intro e he
      rw [List.mem_map] at he
      obtain ⟨p, -, rfl⟩ := he
      exact ⟨rfl, rfl⟩
    · rw [hres]
      rfl
  · intro hid
    rw [excessive_permissions_pattern]
    have : np_choice (nodes.filter fun n => n.group = "identity") d.a = none := by
      rw [hid]
      rfl
    rw [this]

/-- Claim C7 witness: one identity and two sensitive nodes receive two
new writes edges and a descriptor; a graph with no identity node is
returned untouched. -/
theorem c7_excessive_permissions_witness :
    (∃ ident new_edges,
      ident ∈ ([⟨"i1", "i", "identity"⟩, ⟨"s1", "s", "storage"⟩,
          ⟨"d1", "d", "database"⟩] : List CNode).filter (fun n => n.group = "identity") ∧
      (excessive_permissions_pattern ⟨0, 0, 0⟩
        [⟨"i1", "i", "identity"⟩, ⟨"s1", "s", "storage"⟩, ⟨"d1", "d", "database"⟩]
        [⟨"e0", "i1", "s1", "reads"⟩]).nodes =
        [⟨"i1", "i", "identity"⟩, ⟨"s1", "s", "storage"⟩, ⟨"d1", "d", "database"⟩] ∧
      (excessive_permissions_pattern ⟨0, 0, 0⟩
        [⟨"i1", "i", "identity"⟩, ⟨"s1", "s", "storage"⟩, ⟨"d1", "d", "database"⟩]
        [⟨"e0", "i1", "s1", "reads"⟩]).edges = [⟨"e0", "i1", "s1", "reads"⟩] ++ new_edges ∧
      new_edges.length =
        min 5 (([⟨"i1", "i", "identity"⟩, ⟨"s1", "s", "storage"⟩,
          ⟨"d1", "d", "database"⟩] : List CNode).filter
            (fun n => n.group = "database" ∨ n.group = "storage")).length ∧
      (∀ e ∈ new_edges, e.from_ = ident.id ∧ e.label = "writes") ∧
      (excessive_permissions_pattern ⟨0, 0, 0⟩
        [⟨"i1", "i", "identity"⟩, ⟨"s1", "s", "storage"⟩, ⟨"d1", "d", "database"⟩]
        [⟨"e0", "i1", "s1", "reads"⟩]).anomaly.isSome = true)
    ∧ excessive_permissions_pattern ⟨0, 0, 0⟩ [⟨"s1", "s", "storage"⟩] [] =
        ⟨[⟨"s1", "s", "storage"⟩], [], none⟩ :=
  ⟨(c7_excessive_permissions ⟨0, 0, 0⟩
      [⟨"i1", "i", "identity"⟩, ⟨"s1", "s", "storage"⟩, ⟨"d1", "d", "database"⟩]
      [⟨"e0", "i1", "s1", "reads"⟩]).1 (by decide) (by decide),
   (c7_excessive_permissions ⟨0, 0, 0⟩ [⟨"s1", "s", "storage"⟩] []).2 (by decide)⟩

/-- Claim C8: fitting the featurizer is deterministic and independent of
corpus order: any reordering of the corpus yields the same node-type and
relation mappings; the mapping enumerates the distinct values in sorted
order - its keys are the strictly sorted distinct values and its indices
are 0, 1, ... in that order. -/
theorem c8_fit_deterministic (corpus corpus' : List DGraph)
    (h : List.Perm corpus corpus') :
    node_type_mapping corpus = node_type_mapping corpus' ∧
    edge_type_mapping corpus = edge_type_mapping corpus' ∧
    (node_type_mapping corpus).map Prod.fst = (corpus_node_types corpus).sort (· ≤ ·) ∧
    (node_type_mapping corpus).map Prod.snd = List.range (corpus_node_types corpus).card ∧
    List.Sorted (· < ·) ((node_type_mapping corpus).map Prod.fst) ∧
    (edge_type_mapping corpus).map Prod.fst = (corpus_edge_types corpus).sort (· ≤ ·) ∧
    (edge_type_mapping corpus).map Prod.snd = List.range (corpus_edge_types corpus).card ∧
    List.Sorted (· < ·) ((edge_type_mapping corpus).map Prod.fst) := by
  have hn : corpus_node_types corpus = corpus_node_types corpus' := by
    rw [corpus_node_types, corpus_node_types]
    exact List.toFinset_eq_of_perm _ _ ((h.map _).flatten)
  have he : corpus_edge_types corpus = corpus_edge_types corpus' := by
    rw [corpus_edge_types, corpus_edge_types]
    exact List.toFinset_eq_of_perm _ _ ((h.map _).flatten)
  have hfst : ∀ c : List DGraph,
      (node_type_mapping c).map Prod.fst = (corpus_node_types c).sort (· ≤ ·) := by
    intro c
    rw [node_type_mapping, List.map_map]
    have : (Prod.fst ∘ fun p : ℕ × String => (p.2, p.1)) = Prod.snd := rfl
    rw [this, List.enum_map_snd]
  have hfste : ∀ c : List DGraph,
      (edge_type_mapping c).map Prod.fst = (corpus_edge_types c).sort (· ≤ ·) := by
    intro c
    rw [edge_type_mapping, List.map_map]
    have : (Prod.fst ∘ fun p : ℕ × String => (p.2, p.1)) = Prod.snd := rfl
    rw [this, List.enum_map_snd]
  refine ⟨by rw [node_type_mapping, node_type_mapping, hn],
    by rw [edge_type_mapping, edge_type_mapping, he], hfst corpus, ?_, ?_, hfste corpus, ?_, ?_⟩
  · rw [node_type_mapping, List.map_map]
    have : (Prod.snd ∘ fun p : ℕ × String => (p.2, p.1)) = Prod.fst := rfl
    rw [this, List.enum_map_fst, Finset.length_sort]
  · rw [hfst corpus]
    exact Finset.sort_sorted_lt _
  · rw [edge_type_mapping, List.map_map]
    have : (Prod.snd ∘ fun p : ℕ × String => (p.2, p.1)) = Prod.fst := rfl
    rw [this, List.enum_map_fst, Finset.length_sort]
  · rw [hfste corpus]
    exact Finset.sort_sorted_lt _

/-- Claim C8 witness: a two-graph corpus and its reversal fit to
identical sorted vocabularies. -/
theorem c8_fit_deterministic_witness :
    node_type_mapping
        [⟨[⟨"n1", some "storage"⟩], [⟨"e1", some "reads"⟩]⟩,
         ⟨[⟨"n2", some "compute"⟩], []⟩] =
      node_type_mapping
        [⟨[⟨"n2", some "compute"⟩], []⟩,
         ⟨[⟨"n1", some "storage"⟩], [⟨"e1", some "reads"⟩]⟩] ∧
    edge_type_mapping
        [⟨[⟨"n1", some "storage"⟩], [⟨"e1", some "reads"⟩]⟩,
         ⟨[⟨"n2", some "compute"⟩], []⟩] =
      edge_type_mapping
        [⟨[⟨"n2", some "compute"⟩], []⟩,
         ⟨[⟨"n1", some "storage"⟩], [⟨"e1", some "reads"⟩]⟩] :=
  ⟨(c8_fit_deterministic _ _ (List.Perm.swap _ _ _)).1,
   (c8_fit_deterministic _ _ (List.Perm.swap _ _ _)).2.1⟩


/-- Helper: ids are preserved when nodes are appended. -/
theorem node_ids_mono {nodes : List CNode} {a : String} (ext : List CNode)
    (h : a ∈ node_ids nodes) : a ∈ node_ids (nodes ++ ext) := by
  rw [node_ids, List.map_append]
  exact List.mem_append_left _ h

/-- Helper: the second component of an enumerated member is a member. -/
theorem enum_snd_mem {α : Type} {l : List α} {p : ℕ × α} (h : p ∈ l.enum) :
    p.2 ∈ l := by
  have := List.mem_map_of_mem Prod.snd h
  rwa [List.enum_map_snd] at this

/-- Helper: a filtered node's id is among the graph's node ids. -/
theorem node_ids_of_filter {nodes : List CNode} {q : CNode → Bool} {x : CNode}
    (h : x ∈ nodes.filter q) : x.id ∈ node_ids nodes :=
  List.mem_map_of_mem CNode.id (List.mem_of_mem_filter h)

/-- Closure of the excessive-permissions pattern: nodes are unchanged
and every resulting edge keeps endpoints among the resulting node
ids. -/
theorem excessive_permissions_pattern_closed (d : PatternDraws)
    (nodes : List CNode) (edges : List GEdge)
    (h : ∀ e ∈ edges, e.from_ ∈ node_ids nodes ∧ e.to_ ∈ node_ids nodes) :
    (∃ ext, (excessive_permissions_pattern d nodes edges).nodes = nodes ++ ext) ∧
    ∀ e ∈ (excessive_permissions_pattern d nodes edges).edges,
      e.from_ ∈ node_ids (excessive_permissions_pattern d nodes edges).nodes ∧
      e.to_ ∈ node_ids (excessive_permissions_pattern d nodes edges).nodes := by
  cases hch : np_choice (nodes.filter fun n => n.group = "identity") d.a with
  | none =>
    have hres : excessive_permissions_pattern d nodes edges = ⟨nodes, edges, none⟩ := by
      rw [excessive_permissions_pattern, hch]
    rw [hres]
    exact ⟨⟨[], by simp⟩, fun e he => h e he⟩
  | some ident =>
    have hmem := np_choice_mem hch
    by_cases hs : (nodes.filter fun n =>
        n.group = "database" ∨ n.group = "storage") = []
    · have hres : excessive_permissions_pattern d nodes edges = ⟨nodes, edges, none⟩ := by
        rw [excessive_permissions_pattern, hch]
        try dsimp only
        rw [if_pos hs]
      rw [hres]
      exact ⟨⟨[], by simp⟩, fun e he => h e he⟩
    · have hres : excessive_permissions_pattern d nodes edges =
          ⟨nodes,
            edges ++ (((nodes.filter fun n =>
                n.group = "database" ∨ n.group = "storage").take
                (min 5 (nodes.filter fun n =>
                  n.group = "database" ∨ n.group = "storage").length)).enum).map
              (fun p => GEdge.mk ("anomaly-edge-" ++ toString (edges.length + p.1))
                ident.id p.2.id "writes"),
            some ⟨"excessive_permissions",
              "Identity has excessive permissions to sensitive resources",
              ident.id :: ((nodes.filter fun n =>
                n.group = "database" ∨ n.group = "storage").take
                  (min 5 (nodes.filter fun n =>
                    n.group = "database" ∨ n.group = "storage").length)).map (·.id),
              "high"⟩⟩ := by
        rw [excessive_permissions_pattern, hch]
        try dsimp only
        rw [if_neg hs]
      rw [hres]
      refine ⟨⟨[], by simp⟩, ?_⟩
      intro e he
      rcases List.mem_append.mp he with hold | hnew
      · exact h e hold
      · obtain ⟨p, hp, rfl⟩ := List.mem_map.mp hnew
        exact ⟨node_ids_of_filter hmem,
          node_ids_of_filter (List.mem_of_mem_take (enum_snd_mem hp))⟩

/-- Closure of the unusual-access pattern. -/
theorem unusual_access_pattern_closed (d : PatternDraws)
    (nodes : List CNode) (edges : List GEdge)
    (h : ∀ e ∈ edges, e.from_ ∈ node_ids nodes ∧ e.to_ ∈ node_ids nodes) :
    (∃ ext, (unusual_access_pattern d nodes edges).nodes = nodes ++ ext) ∧
    ∀ e ∈ (unusual_access_pattern d nodes edges).edges,
      e.from_ ∈ node_ids (unusual_access_pattern d nodes edges).nodes ∧
      e.to_ ∈ node_ids (unusual_access_pattern d nodes edges).nodes := by
  by_cases hlt : (nodes.filter fun n => n.group = "compute").length < 2
  · have hres : unusual_access_pattern d nodes edges = ⟨nodes, edges, none⟩ := by
      rw [unusual_access_pattern]
      try dsimp only
      rw [if_pos hlt]
    rw [hres]
    exact ⟨⟨[], by simp⟩, fun e he => h e he⟩
  · cases hch : np_choice (nodes.filter fun n => n.group = "compute") d.a with
    | none =>
      have hres : unusual_access_pattern d nodes edges = ⟨nodes, edges, none⟩ := by
        rw [unusual_access_pattern]
        try dsimp only
        rw [if_neg hlt, hch]
      rw [hres]
      exact ⟨⟨[], by simp⟩, fun e he => h e he⟩
    | some source_node =>
      cases hch2 : np_choice ((nodes.filter fun n => n.group = "compute").filter
          fun n => n.id ≠ source_node.id) d.b with
      | none =>
        have hres : unusual_access_pattern d nodes edges = ⟨nodes, edges, none⟩ := by
          rw [unusual_access_pattern]
          try dsimp only
          rw [if_neg hlt, hch]
          try dsimp only
          rw [hch2]
        rw [hres]
        exact ⟨⟨[], by simp⟩, fun e he => h e he⟩
      | some target_node =>
        have hres : unusual_access_pattern d nodes edges =
            ⟨nodes,
              edges ++ [⟨"anomaly-edge-" ++ toString edges.length,
                source_node.id, target_node.id, "executes"⟩],
              some ⟨"unusual_access",
                "Compute instance accessing another compute instance in an unusual way",
                [source_node.id, target_node.id], "medium"⟩⟩ := by
          rw [unusual_access_pattern]
          try dsimp only
          rw [if_neg hlt, hch]
          try dsimp only
          rw [hch2]
        rw [hres]
        refine ⟨⟨[], by simp⟩, ?_⟩
        intro e he
        rcases List.mem_append.mp he with hold | hnew
        · exact h e hold
        · rw [List.mem_singleton] at hnew
          subst hnew
          exact ⟨node_ids_of_filter (np_choice_mem hch),
            node_ids_of_filter (List.mem_of_mem_filter (np_choice_mem hch2))⟩

/-- Closure of the insecure-configuration pattern: the public-internet
node is appended before the new edge references it. -/
theorem insecure_configuration_pattern_closed (d : PatternDraws)
    (nodes : List CNode) (edges : List GEdge)
    (h : ∀ e ∈ edges, e.from_ ∈ node_ids nodes ∧ e.to_ ∈ node_ids nodes) :
    (∃ ext, (insecure_configuration_pattern d nodes edges).nodes = nodes ++ ext) ∧
    ∀ e ∈ (insecure_configuration_pattern d nodes edges).edges,
      e.from_ ∈ node_ids (insecure_configuration_pattern d nodes edges).nodes ∧
      e.to_ ∈ node_ids (insecure_configuration_pattern d nodes edges).nodes := by
  cases hch : np_choice (nodes.filter fun n => n.group = "storage") d.a with
  | none =>
    have hres : insecure_configuration_pattern d nodes edges = ⟨nodes, edges, none⟩ := by
      rw [insecure_configuration_pattern, hch]
    rw [hres]
    exact ⟨⟨[], by simp⟩, fun e he => h e he⟩
  | some storage_node =>
    by_cases hex : ∃ n ∈ nodes, n.id = "public-internet"
    · have hres : insecure_configuration_pattern d nodes edges =
          ⟨nodes,
            edges ++ [⟨"anomaly-edge-" ++ toString edges.length,
              "public-internet", storage_node.id, "reads"⟩],
            some ⟨"insecure_configuration", "Storage resource is publicly accessible",
              [storage_node.id], "critical"⟩⟩ := by
        rw [insecure_configuration_pattern, hch]
        try dsimp only
        rw [if_pos hex]
      rw [hres]
      have hpub : ("public-internet" : String) ∈ node_ids nodes := by
        obtain ⟨x, hx, hid⟩ := hex
        rw [node_ids, List.mem_map]
        exact ⟨x, hx, hid⟩
      refine ⟨⟨[], by simp⟩, ?_⟩
      intro e he
      rcases List.mem_append.mp he with hold | hnew
      · exact h e hold
      · rw [List.mem_singleton] at hnew
        subst hnew
        exact ⟨hpub, node_ids_of_filter (np_choice_mem hch)⟩
    · have hres : insecure_configuration_pattern d nodes edges =
          ⟨nodes ++ [⟨"public-internet", "Public Internet", "network"⟩],
            edges ++ [⟨"anomaly-edge-" ++ toString edges.length,
              "public-internet", storage_node.id, "reads"⟩],
            some ⟨"insecure_configuration", "Storage resource is publicly accessible",
              [storage_node.id], "critical"⟩⟩ := by
        rw [insecure_configuration_pattern, hch]
        try dsimp only
        rw [if_neg hex]
      rw [hres]
      refine ⟨⟨[⟨"public-internet", "Public Internet", "network"⟩], by simp⟩, ?_⟩
      intro e he
      rcases List.mem_append.mp he with hold | hnew
      · obtain ⟨h1, h2⟩ := h e hold
        exact ⟨node_ids_mono _ h1, node_ids_mono _ h2⟩
      · rw [List.mem_singleton] at hnew
        subst hnew
        refine ⟨?_, node_ids_mono _ (node_ids_of_filter (np_choice_mem hch))⟩
        rw [node_ids, List.map_append]
        exact List.mem_append_right _ (by simp)

/-- Closure of the privilege-escalation pattern. -/
theorem privilege_escalation_pattern_closed (d : PatternDraws)
    (nodes : List CNode) (edges : List GEdge)
    (h : ∀ e ∈ edges, e.from_ ∈ node_ids nodes ∧ e.to_ ∈ node_ids nodes) :
    (∃ ext, (privilege_escalation_pattern d nodes edges).nodes = nodes ++ ext) ∧
    ∀ e ∈ (privilege_escalation_pattern d nodes edges).edges,
      e.from_ ∈ node_ids (privilege_escalation_pattern d nodes edges).nodes ∧
      e.to_ ∈ node_ids (privilege_escalation_pattern d nodes edges).nodes := by
  by_cases hlt : (nodes.filter fun n => n.group = "identity").length < 2
  · have hres : privilege_escalation_pattern d nodes edges = ⟨nodes, edges, none⟩ := by
      rw [privilege_escalation_pattern]
      try dsimp only
      rw [if_pos hlt]
    rw [hres]
    exact ⟨⟨[], by simp⟩, fun e he => h e he⟩
  · cases hch : np_choice (nodes.filter fun n => n.group = "identity") d.a with
    | none =>
      have hres : privilege_escalation_pattern d nodes edges = ⟨nodes, edges, none⟩ := by
        rw [privilege_escalation_pattern]
        try dsimp only
        rw [if_neg hlt, hch]
      rw [hres]
      exact ⟨⟨[], by simp⟩, fun e he => h e he⟩
    | some low_priv_node =>
      cases hch2 : np_choice ((nodes.filter fun n => n.group = "identity").filter
          fun n => n.id ≠ low_priv_node.id) d.b with
      | none =>
        have hres : privilege_escalation_pattern d nodes edges = ⟨nodes, edges, none⟩ := by
          rw [privilege_escalation_pattern]
          try dsimp only
          rw [if_neg hlt, hch]
          try dsimp only
          rw [hch2]
        rw [hres]
        exact ⟨⟨[], by simp⟩, fun e he => h e he⟩
      | some high_priv_node =>
        cases hch3 : np_choice (nodes.filter fun n => n.group ≠ "identity") d.c with
        | none =>
          have hres : privilege_escalation_pattern d nodes edges = ⟨nodes, edges, none⟩ := by
            rw [privilege_escalation_pattern]
            try dsimp only
            rw [if_neg hlt, hch]
            try dsimp only
            rw [hch2]
            try dsimp only
            rw [hch3]
          rw [hres]
          exact ⟨⟨[], by simp⟩, fun e he => h e he⟩
        | some intermediate_node =>
          have hres : privilege_escalation_pattern d nodes edges =
              ⟨nodes,
                edges ++ [⟨"anomaly-edge-" ++ toString edges.length,
                    low_priv_node.id, intermediate_node.id, "writes"⟩,
                  ⟨"anomaly-edge-" ++ toString edges.length ++ "-2",
                    intermediate_node.id, high_priv_node.id, "trusts"⟩],
                some ⟨"privilege_escalation",
                  "Potential privilege escalation path detected",
                  [low_priv_node.id, intermediate_node.id, high_priv_node.id],
                  "critical"⟩⟩ := by
            rw [privilege_escalation_pattern]
            try dsimp only
            rw [if_neg hlt, hch]
            try dsimp only
            rw [hch2]
            try dsimp only
            rw [hch3]
          rw [hres]
          refine ⟨⟨[], by simp⟩, ?_⟩
          intro e he
          rcases List.mem_append.mp he with hold | hnew
          · exact h e hold
          · rcases List.mem_cons.mp hnew with rfl | hnew2
            · exact ⟨node_ids_of_filter (np_choice_mem hch),
                node_ids_of_filter (np_choice_mem hch3)⟩
            · rw [List.mem_singleton] at hnew2
              subst hnew2
              exact ⟨node_ids_of_filter (np_choice_mem hch3),
                node_ids_of_filter (List.mem_of_mem_filter (np_choice_mem hch2))⟩

/-- Closure of the data-exfiltration pattern: the external-endpoint node
is appended before the new edges reference it. -/
theorem data_exfiltration_pattern_closed (d : PatternDraws)
    (nodes : List CNode) (edges : List GEdge)
    (h : ∀ e ∈ edges, e.from_ ∈ node_ids nodes ∧ e.to_ ∈ node_ids nodes) :
    (∃ ext, (data_exfiltration_pattern d nodes edges).nodes = nodes ++ ext) ∧
    ∀ e ∈ (data_exfiltration_pattern d nodes edges).edges,
      e.from_ ∈ node_ids (data_exfiltration_pattern d nodes edges).nodes ∧
      e.to_ ∈ node_ids (data_exfiltration_pattern d nodes edges).nodes := by
  by_cases hempty : (nodes.filter fun n =>
      n.group = "storage" ∨ n.group = "database") = [] ∨
      (nodes.filter fun n => n.group = "compute") = []
  · have hres : data_exfiltration_pattern d nodes edges = ⟨nodes, edges, none⟩ := by
      rw [data_exfiltration_pattern]
      try dsimp only
      rw [if_pos hempty]
    rw [hres]
    exact ⟨⟨[], by simp⟩, fun e he => h e he⟩
  · cases hch : np_choice (nodes.filter fun n =>
        n.group = "storage" ∨ n.group = "database") d.a with
    | none =>
      have hres : data_exfiltration_pattern d nodes edges = ⟨nodes, edges, none⟩ := by
        rw [data_exfiltration_pattern]
        try dsimp only
        rw [if_neg hempty, hch]
      rw [hres]
      exact ⟨⟨[], by simp⟩, fun e he => h e he⟩
    | some storage_node =>
      cases hch2 : np_choice (nodes.filter fun n => n.group = "compute") d.b with
      | none =>
        have hres : data_exfiltration_pattern d nodes edges = ⟨nodes, edges, none⟩ := by
          rw [data_exfiltration_pattern]
          try dsimp only
          rw [if_neg hempty, hch, hch2]
        rw [hres]
        exact ⟨⟨[], by simp⟩, fun e he => h e he⟩
      | some compute_node =>
        by_cases hex : ∃ n ∈ nodes, n.id = "external-endpoint"
        · have hres : data_exfiltration_pattern d nodes edges =
              ⟨nodes,
                edges ++ [⟨"anomaly-edge-" ++ toString edges.length,
                    compute_node.id, storage_node.id, "reads"⟩,
                  ⟨"anomaly-edge-" ++ toString (edges.length + 1),
                    compute_node.id, "external-endpoint", "writes"⟩],
                some ⟨"data_exfiltration",
                  "Potential data exfiltration path detected",
                  [compute_node.id, storage_node.id, "external-endpoint"],
                  "critical"⟩⟩ := by
            rw [data_exfiltration_pattern]
            try dsimp only
            rw [if_neg hempty, hch, hch2]
            try dsimp only
            rw [if_pos hex]
          rw [hres]
          have hext : ("external-endpoint" : String) ∈ node_ids nodes := by
            obtain ⟨x, hx, hid⟩ := hex
            rw [node_ids, List.mem_map]
            exact ⟨x, hx, hid⟩
          refine ⟨⟨[], by simp⟩, ?_⟩
          intro e he
          rcases List.mem_append.mp he with hold | hnew
          · exact h e hold
          · rcases List.mem_cons.mp hnew with rfl | hnew2
            · exact ⟨node_ids_of_filter (np_choice_mem hch2),
                node_ids_of_filter (np_choice_mem hch)⟩
            · rw [List.mem_singleton] at hnew2
              subst hnew2
              exact ⟨node_ids_of_filter (np_choice_mem hch2), hext⟩
        · have hres : data_exfiltration_pattern d nodes edges =
              ⟨nodes ++ [⟨"external-endpoint", "External Endpoint", "network"⟩],
                edges ++ [⟨"anomaly-edge-" ++ toString edges.length,
                    compute_node.id, storage_node.id, "reads"⟩,
                  ⟨"anomaly-edge-" ++ toString (edges.length + 1),
                    compute_node.id, "external-endpoint", "writes"⟩],
                some ⟨"data_exfiltration",
                  "Potential data exfiltration path detected",
                  [compute_node.id, storage_node.id, "external-endpoint"],
                  "critical"⟩⟩ := by
            rw [data_exfiltration_pattern]
            try dsimp only
            rw [if_neg hempty, hch, hch2]
            try dsimp only
            rw [if_neg hex]
          rw [hres]
          refine ⟨⟨[⟨"external-endpoint", "External Endpoint", "network"⟩], by simp⟩, ?_⟩
          intro e he
          rcases List.mem_append.mp he with hold | hnew
          · obtain ⟨h1, h2⟩ := h e hold
            exact ⟨node_ids_mono _ h1, node_ids_mono _ h2⟩
          · rcases List.mem_cons.mp hnew with rfl | hnew2
            · exact ⟨node_ids_mono _ (node_ids_of_filter (np_choice_mem hch2)),
                node_ids_mono _ (node_ids_of_filter (np_choice_mem hch))⟩
            · rw [List.mem_singleton] at hnew2
              subst hnew2
              refine ⟨node_ids_mono _ (node_ids_of_filter (np_choice_mem hch2)), ?_⟩
              rw [node_ids, List.map_append]
              exact List.mem_append_right _ (by simp)

/-- Closure of the pattern dispatch, whichever of the five patterns the
uniform draw selects. -/
theorem apply_pattern_closed (k : ℕ) (d : PatternDraws)
    (nodes : List CNode) (edges : List GEdge)
    (h : ∀ e ∈ edges, e.from_ ∈ node_ids nodes ∧ e.to_ ∈ node_ids nodes) :
    (∃ ext, (apply_pattern k d nodes edges).nodes = nodes ++ ext) ∧
    ∀ e ∈ (apply_pattern k d nodes edges).edges,
      e.from_ ∈ node_ids (apply_pattern k d nodes edges).nodes ∧
      e.to_ ∈ node_ids (apply_pattern k d nodes edges).nodes := by
  rw [apply_pattern]
  have h5 : k % 5 = 0 ∨ k % 5 = 1 ∨ k % 5 = 2 ∨ k % 5 = 3 ∨ k % 5 = 4 := by omega
  rcases h5 with h5 | h5 | h5 | h5 | h5 <;> rw [h5]
  · exact excessive_permissions_pattern_closed d nodes edges h
  · exact unusual_access_pattern_closed d nodes edges h
  · exact insecure_configuration_pattern_closed d nodes edges h
  · exact privilege_escalation_pattern_closed d nodes edges h
  · exact data_exfiltration_pattern_closed d nodes edges h

/-- Helper: both components of a generated index pair are below the
node count. -/
theorem mem_gen_pairs {num_nodes : ℕ} {g : GraphDraws} {p : ℕ × ℕ}
    (hp : p ∈ gen_pairs num_nodes g) : p.1 < num_nodes ∧ p.2 < num_nodes := by
  rw [gen_pairs, List.mem_flatten] at hp
  obtain ⟨l, hl, hpl⟩ := hp
  obtain ⟨i, hi, rfl⟩ := List.mem_map.mp hl
  obtain ⟨j, hj, hsome⟩ := List.mem_filterMap.mp hpl
  by_cases hc : i ≠ j ∧ g.edge_on i j
  · rw [if_pos hc] at hsome
    obtain rfl := Option.some.inj hsome
    exact ⟨List.mem_range.mp hi, List.mem_range.mp hj⟩
  · rw [if_neg hc] at hsome
    exact absurd hsome (by simp)

/-- Helper: node-i is among the generated node ids whenever i < n. -/
theorem node_id_mem_gen_nodes {i num_nodes : ℕ} (g : GraphDraws)
    (hi : i < num_nodes) :
    ("node-" ++ toString i) ∈ node_ids (gen_nodes num_nodes g) := by
  rw [node_ids, gen_nodes, List.map_map]
  exact List.mem_map.mpr ⟨i, List.mem_range.mpr hi, rfl⟩

/-- Helper: every base edge generated by the Bernoulli pass is closed. -/
theorem gen_edges_closed (num_nodes : ℕ) (g : GraphDraws) :
    ∀ e ∈ gen_edges num_nodes g,
      e.from_ ∈ node_ids (gen_nodes num_nodes g) ∧
      e.to_ ∈ node_ids (gen_nodes num_nodes g) := by
  intro e he
  rw [gen_edges] at he
  obtain ⟨p, hp, rfl⟩ := List.mem_map.mp he
  obtain ⟨h1, h2⟩ := mem_gen_pairs (enum_snd_mem hp)
  exact ⟨node_id_mem_gen_nodes g h1, node_id_mem_gen_nodes g h2⟩

/-- Claim C6: for every node count and every outcome of the random
draws - including every anomaly-injection pattern - each edge of the
generated graph has both endpoints among the generated graph's node
ids. -/
theorem c6_generator_invariant (num_nodes : ℕ) (g : GraphDraws) :
    ∀ e ∈ (generate_graph num_nodes g).edges,
      e.from_ ∈ node_ids (generate_graph num_nodes g).nodes ∧
      e.to_ ∈ node_ids (generate_graph num_nodes g).nodes := by
  intro e
  rw [generate_graph]
  try dsimp only
  by_cases hda : g.do_anomaly = true
  · rw [if_pos hda]
    exact (apply_pattern_closed g.pattern g.pd (gen_nodes num_nodes g)
      (gen_edges num_nodes g) (gen_edges_closed num_nodes g)).2 e
  · rw [if_neg hda]
    exact gen_edges_closed num_nodes g e

/-- Claim C6 witness: a concrete 2-node all-storage graph with the
insecure-configuration pattern injected; the anomaly edge from the
appended public-internet node is closed. -/
theorem c6_generator_invariant_witness :
    ("public-internet" : String) ∈ node_ids (generate_graph 2
      ⟨fun _ => "storage", fun _ _ => true, fun _ _ => "reads", true, 2, ⟨0, 0, 0⟩⟩).nodes ∧
    ("node-0" : String) ∈ node_ids (generate_graph 2
      ⟨fun _ => "storage", fun _ _ => true, fun _ _ => "reads", true, 2, ⟨0, 0, 0⟩⟩).nodes :=
  c6_generator_invariant 2
    ⟨fun _ => "storage", fun _ _ => true, fun _ _ => "reads", true, 2, ⟨0, 0, 0⟩⟩
    ⟨"anomaly-edge-2", "public-internet", "node-0", "reads"⟩ (by decide)


end Malaphor
